import Mathlib

/-!
A shallow embedding of the monokakido dictionary-reader library
(`src/key.rs`, `src/resource/rsc.rs`, `src/resource/nrsc.rs`), together
with theorems checking the specification's claims about it.

Modelling conventions:
* Byte buffers are `List Nat` (each element is one byte of the on-disk data).
* Rust `Result<T, Error>` is `Except Error T` where no panic is possible,
  and `Outcome T` (which adds a `panic` constructor) where the Rust code can
  panic (out-of-bounds indexing, `split_at` past the end, `unreachable!`).
* `usize` arithmetic that can underflow is modelled with explicit wrapping
  modulo `2 ^ 64` (release-build semantics) except where the wrapped value
  immediately triggers a guaranteed out-of-bounds panic, in which case the
  operation is modelled as `panic` directly.
* Loops are modelled by recursion; the one loop whose termination is not
  structural (`Keys::search_exact`) carries an iteration budget far larger
  than any run reachable from the concrete inputs considered.
-/

/-- The error enum of `src/error.rs` (kinds relevant to the claims). -/
inductive Error where
  | Transmute
  | KeyIndexHeaderValidate
  | KeyFileHeaderValidate
  | FopenError
  | ZlibError
  | Utf8Error
  | IncorrectStreamLength
  | BufferTooSmall
  | IndexMismach
  | NotFound
  | IOError
  | MissingResourceFile
  | InvalidIndex
  | InvalidAudioFormat
  | IndexDoesntExist
  deriving DecidableEq, Repr

/-- Outcome of running a piece of Rust code that may also panic.
`diverge` marks exhaustion of an iteration budget of a modelled loop. -/
inductive Outcome (α : Type) where
  | ok (a : α)
  | err (e : Error)
  | panic
  | diverge
  deriving DecidableEq, Repr

/-- The constant `2 ^ 64`: the modulus of `usize` arithmetic. -/
def USIZE : Nat := 2 ^ 64

/-- Three-way comparison on `Nat`, mirroring Rust's `Ord::cmp` on integers. -/
def compareNat (a b : Nat) : Ordering :=
  if a < b then .lt else if b < a then .gt else .eq

/-- Byte-wise lexicographic comparison, mirroring `<[u8] as Ord>::cmp`
(and `str::cmp`, which Rust defines as the comparison of the UTF-8 bytes). -/
def compareBytes : List Nat → List Nat → Ordering
  | [], [] => .eq
  | [], _ :: _ => .lt
  | _ :: _, [] => .gt
  | a :: as_, b :: bs =>
    match compareNat a b with
    | .eq => compareBytes as_ bs
    | ord => ord

/-- Structure `PageItemId` of `src/key.rs`. -/
structure PageItemId where
  page : Nat
  item : Nat
  deriving DecidableEq, Repr

/-- Function `pid` of `src/key.rs`: `page = u32::from_be_bytes([0, hi, mid, lo])`. -/
def pid (hi mid lo item : Nat) : PageItemId :=
  { page := hi * 65536 + mid * 256 + lo, item := item }

/-- The validation loop of `PageIter::new` (`src/key.rs`): walk `count`
tagged tuples; on success the unconsumed tail is returned, and an unknown
tag or a truncated tuple stops the walk with the failing slice `e`
(the source's catch-all arm, whose `dbg!("hmm", &e[..100])` and
`Err(Error::InvalidIndex)` the caller `pageIterNew` then performs on that
slice). -/
def checkRun : Nat → List Nat → Except (List Nat) (List Nat)
  | 0, tail => .ok tail
  | n + 1, 1 :: _ :: t => checkRun n t
  | n + 1, 2 :: _ :: _ :: t => checkRun n t
  | n + 1, 4 :: _ :: _ :: _ :: t => checkRun n t
  | n + 1, 17 :: _ :: _ :: t => checkRun n t
  | n + 1, 18 :: _ :: _ :: _ :: t => checkRun n t
  | _ + 1, e => .error e

/-- One call of `<PageIter as Iterator>::next` (`src/key.rs`), restricted to
the decoding of the span (the `count` field is only decremented there and
never steers the control flow). `panic` is the `unreachable!()` arm. -/
def decodeStep : List Nat → Outcome (Option (PageItemId × List Nat))
  | [] => .ok none
  | 1 :: hi :: tail => .ok (some (pid 0 0 hi 0, tail))
  | 2 :: hi :: lo :: tail => .ok (some (pid 0 hi lo 0, tail))
  | 4 :: hi :: mid :: lo :: tail => .ok (some (pid hi mid lo 0, tail))
  | 17 :: hi :: item :: tail => .ok (some (pid 0 0 hi item, tail))
  | 18 :: hi :: lo :: item :: tail => .ok (some (pid 0 hi lo item, tail))
  | _ => .panic

/-- Running the iterator to exhaustion: the list of yielded `PageItemId`s
together with the number of span bytes consumed. Mirrors repeatedly calling
`next` until it returns `None`; `panic` is the `unreachable!()` arm. -/
def drainTrace : List Nat → Outcome (List PageItemId × Nat)
  | [] => .ok ([], 0)
  | 1 :: hi :: tail =>
    match drainTrace tail with
    | .ok (items, c) => .ok (pid 0 0 hi 0 :: items, 2 + c)
    | o => o
  | 2 :: hi :: lo :: tail =>
    match drainTrace tail with
    | .ok (items, c) => .ok (pid 0 hi lo 0 :: items, 3 + c)
    | o => o
  | 4 :: hi :: mid :: lo :: tail =>
    match drainTrace tail with
    | .ok (items, c) => .ok (pid hi mid lo 0 :: items, 4 + c)
    | o => o
  | 17 :: hi :: item :: tail =>
    match drainTrace tail with
    | .ok (items, c) => .ok (pid 0 0 hi item :: items, 3 + c)
    | o => o
  | 18 :: hi :: lo :: item :: tail =>
    match drainTrace tail with
    | .ok (items, c) => .ok (pid 0 hi lo item :: items, 4 + c)
    | o => o
  | _ => .panic

/-- The state of a `PageIter` (`src/key.rs`): the `u16` count read from the
run header and the validated span of bytes. -/
structure PIter where
  count : Nat
  span : List Nat
  deriving DecidableEq, Repr

/-- Constructor `PageIter::new` (`src/key.rs`): `pages.split_at(2)` panics when fewer
than 2 bytes remain; otherwise the little-endian `u16` count is read and
the validation loop runs. When the walk stops at a bad tuple with failing
slice `e`, the source runs `dbg!("hmm", &e[..100])` before returning
`Err(Error::InvalidIndex)` — and that `&e[..100]` slice panics whenever
fewer than 100 bytes remain. On success the measured span is retained. -/
def pageIterNew (pages : List Nat) : Outcome PIter :=
  if pages.length < 2 then .panic
  else
    match checkRun (pages.get! 0 + 256 * pages.get! 1) (pages.drop 2) with
    | .error e => if e.length < 100 then .panic else .err .InvalidIndex
    | .ok tail =>
      .ok ⟨pages.get! 0 + 256 * pages.get! 1,
        (pages.drop 2).take ((pages.drop 2).length - tail.length)⟩

example : pageIterNew [2, 0, 2, 1, 44, 17, 5, 7] = .ok ⟨2, [2, 1, 44, 17, 5, 7]⟩ := by rfl
example : drainTrace [2, 1, 44, 17, 5, 7] = .ok ([⟨300, 0⟩, ⟨5, 7⟩], 6) := by rfl
example : pageIterNew [0, 0] = .ok ⟨0, []⟩ := by rfl
example : drainTrace [] = .ok ([], 0) := by rfl
example : pageIterNew [1, 0, 3, 9] = .panic := by rfl
example : pageIterNew [5] = .panic := by rfl

/-- In the catch-all arm of the validation match (no tuple shape fits),
the walk stops with the failing slice. -/
theorem checkRun_succ_reject (n : Nat) (s : List Nat)
    (h1 : ∀ hd t, s = 1 :: hd :: t → False)
    (h2 : ∀ a b t, s = 2 :: a :: b :: t → False)
    (h4 : ∀ a b c t, s = 4 :: a :: b :: c :: t → False)
    (h17 : ∀ a b t, s = 17 :: a :: b :: t → False)
    (h18 : ∀ a b c t, s = 18 :: a :: b :: c :: t → False) :
    checkRun (n + 1) s = .error s := by
  unfold checkRun
  split
  · omega
  · exact absurd rfl (h1 _ _)
  · exact absurd rfl (h2 _ _ _)
  · exact absurd rfl (h4 _ _ _ _)
  · exact absurd rfl (h17 _ _ _)
  · exact absurd rfl (h18 _ _ _ _)
  · rfl

/-- Each validated tuple only shortens the buffer. -/
theorem checkRun_length_le :
    ∀ (n : Nat) (s tail : List Nat), checkRun n s = .ok tail → tail.length ≤ s.length := by
  intro n s
  induction n, s using checkRun.induct <;> intro tail h
  case case1 =>
    rw [checkRun] at h
    cases h
    exact le_refl _
  case case7 =>
    rename_i n s h1 h2 h4 h17 h18
    rw [checkRun_succ_reject n s h1 h2 h4 h17 h18] at h
    exact absurd h (by simp)
  all_goals
    rw [checkRun] at h
    rename_i ih
    have := ih tail h
    simp only [List.length_cons]
    omega

/-- Emission over a prefix that the validation pass accepted as `n` tuples
yields exactly `n` items, consumes every byte of that prefix, and never
reaches the `unreachable!()` arm. -/
theorem checkRun_drain :
    ∀ (n : Nat) (s tail : List Nat), checkRun n s = .ok tail →
      ∃ items : List PageItemId,
        drainTrace (s.take (s.length - tail.length)) =
          .ok (items, s.length - tail.length) ∧ items.length = n := by
  intro n s
  induction n, s using checkRun.induct <;> intro tail h
  case case1 =>
    rw [checkRun] at h
    cases h
    exact ⟨[], by simp [drainTrace], rfl⟩
  case case7 =>
    rename_i n s h1 h2 h4 h17 h18
    rw [checkRun_succ_reject n s h1 h2 h4 h17 h18] at h
    exact absurd h (by simp)
  case case2 =>
    rename_i n hi t ih
    rw [checkRun] at h
    have hle := checkRun_length_le n t tail h
    obtain ⟨items, hdrain, hlen⟩ := ih tail h
    refine ⟨pid 0 0 hi 0 :: items, ?_, by simp [hlen]⟩
    have harith : (1 :: hi :: t).length - tail.length = 2 + (t.length - tail.length) := by
      simp only [List.length_cons]; omega
    rw [harith]
    have htake : (1 :: hi :: t).take (2 + (t.length - tail.length)) =
        1 :: hi :: t.take (t.length - tail.length) := by
      simp [List.take_succ_cons, Nat.add_comm]
    rw [htake]
    simp only [drainTrace, hdrain]
  case case3 =>
    rename_i n hi lo t ih
    rw [checkRun] at h
    have hle := checkRun_length_le n t tail h
    obtain ⟨items, hdrain, hlen⟩ := ih tail h
    refine ⟨pid 0 hi lo 0 :: items, ?_, by simp [hlen]⟩
    have harith : (2 :: hi :: lo :: t).length - tail.length = 3 + (t.length - tail.length) := by
      simp only [List.length_cons]; omega
    rw [harith]
    have htake : (2 :: hi :: lo :: t).take (3 + (t.length - tail.length)) =
        2 :: hi :: lo :: t.take (t.length - tail.length) := by
      simp [List.take_succ_cons, Nat.add_comm]
    rw [htake]
    simp only [drainTrace, hdrain]
  case case4 =>
    rename_i n b1 b2 b3 t ih
    rw [checkRun] at h
    have hle := checkRun_length_le n t tail h
    obtain ⟨items, hdrain, hlen⟩ := ih tail h
    refine ⟨pid b1 b2 b3 0 :: items, ?_, by simp [hlen]⟩
    have harith : (4 :: b1 :: b2 :: b3 :: t).length - tail.length =
        4 + (t.length - tail.length) := by
      simp only [List.length_cons]; omega
    rw [harith]
    have htake : (4 :: b1 :: b2 :: b3 :: t).take (4 + (t.length - tail.length)) =
        4 :: b1 :: b2 :: b3 :: t.take (t.length - tail.length) := by
      simp [List.take_succ_cons, Nat.add_comm]
    rw [htake]
    simp only [drainTrace, hdrain]
  case case5 =>
    rename_i n hi item t ih
    rw [checkRun] at h
    have hle := checkRun_length_le n t tail h
    obtain ⟨items, hdrain, hlen⟩ := ih tail h
    refine ⟨pid 0 0 hi item :: items, ?_, by simp [hlen]⟩
    have harith : (17 :: hi :: item :: t).length - tail.length =
        3 + (t.length - tail.length) := by
      simp only [List.length_cons]; omega
    rw [harith]
    have htake : (17 :: hi :: item :: t).take (3 + (t.length - tail.length)) =
        17 :: hi :: item :: t.take (t.length - tail.length) := by
      simp [List.take_succ_cons, Nat.add_comm]
    rw [htake]
    simp only [drainTrace, hdrain]
  case case6 =>
    rename_i n hi lo item t ih
    rw [checkRun] at h
    have hle := checkRun_length_le n t tail h
    obtain ⟨items, hdrain, hlen⟩ := ih tail h
    refine ⟨pid 0 hi lo item :: items, ?_, by simp [hlen]⟩
    have harith : (18 :: hi :: lo :: item :: t).length - tail.length =
        4 + (t.length - tail.length) := by
      simp only [List.length_cons]; omega
    rw [harith]
    have htake : (18 :: hi :: lo :: item :: t).take (4 + (t.length - tail.length)) =
        18 :: hi :: lo :: item :: t.take (t.length - tail.length) := by
      simp [List.take_succ_cons, Nat.add_comm]
    rw [htake]
    simp only [drainTrace, hdrain]

/-- C3: for every page-reference run accepted by `PageIter::new`'s
validation pass, iterating yields exactly `count` `PageItemId` values
followed by `None` (the drain returns `ok`, so the `unreachable!()` arm —
modelled as `panic` — is never taken), and consumes exactly the span of
bytes the validation pass measured (`it.span`, whose full length is the
consumed-byte count); in the case `count == 0` the measured span is empty,
so the iterator yields nothing and does not fail. -/
theorem c3_page_iter_total (pages : List Nat) (it : PIter)
    (h : pageIterNew pages = .ok it) :
    ∃ items : List PageItemId,
      drainTrace it.span = .ok (items, it.span.length) ∧ items.length = it.count := by
  unfold pageIterNew at h
  split at h
  · exact absurd h (by simp)
  · rename_i hlen
    split at h
    · split at h <;> exact absurd h (by simp)
    · rename_i tail hcheck
      cases h
      obtain ⟨items, hdrain, hl⟩ :=
        checkRun_drain (pages.get! 0 + 256 * pages.get! 1) (pages.drop 2) tail hcheck
      have hle :=
        checkRun_length_le (pages.get! 0 + 256 * pages.get! 1) (pages.drop 2) tail hcheck
      refine ⟨items, ?_, ?_⟩
      · simpa [List.length_take, Nat.min_def, Nat.sub_le] using hdrain
      · simpa using hl

/-- Witness for C3 at the run `02 00  02 01 2C  11 05 07`. -/
theorem c3_page_iter_total_witness :
    ∃ items : List PageItemId,
      drainTrace (PIter.mk 2 [2, 1, 44, 17, 5, 7]).span =
        .ok (items, (PIter.mk 2 [2, 1, 44, 17, 5, 7]).span.length) ∧
      items.length = (PIter.mk 2 [2, 1, 44, 17, 5, 7]).count :=
  c3_page_iter_total [2, 0, 2, 1, 44, 17, 5, 7] (PIter.mk 2 [2, 1, 44, 17, 5, 7]) (by rfl)

/-- Every unknown tag stops the validation walk at the failing slice. -/
theorem checkRun_unknown_tag (t : Nat) (rest : List Nat) (n : Nat)
    (ht1 : t ≠ 1) (ht2 : t ≠ 2) (ht4 : t ≠ 4) (ht17 : t ≠ 17) (ht18 : t ≠ 18) :
    checkRun (n + 1) (t :: rest) = .error (t :: rest) := by
  refine checkRun_succ_reject n (t :: rest) ?_ ?_ ?_ ?_ ?_
  · intro hd tl heq
    cases heq
    exact ht1 rfl
  · intro a b tl heq
    cases heq
    exact ht2 rfl
  · intro a b c tl heq
    cases heq
    exact ht4 rfl
  · intro a b tl heq
    cases heq
    exact ht17 rfl
  · intro a b c tl heq
    cases heq
    exact ht18 rfl

/-- Counterexample to C8 as stated: on the run `01 00 03 09 09 09`
(count 1, unknown tag 3, four bytes remaining at the failure), the
validation's catch-all runs `dbg!("hmm", &e[..100])`, whose slice is out
of bounds — the program panics instead of rejecting the run with the
corrupt-index error. -/
theorem c8_decode_table_counterexample :
    pageIterNew [1, 0, 3, 9, 9, 9] = .panic ∧
    (Outcome.panic : Outcome PIter) ≠ .err .InvalidIndex := ⟨by rfl, by decide⟩

/-- C8 amended: the five-shape decode table of `PageIter::next` — tag 1
consumes 2 bytes yielding `(b1, 0)`, tag 2 consumes 3 bytes yielding
`(b1*256+b2, 0)`, tag 4 consumes 4 bytes yielding
`(b1*65536+b2*256+b3, 0)`, tag 17 consumes 3 bytes yielding `(b1, b2)`,
tag 18 consumes 4 bytes yielding `(b1*256+b2, b3)` (the page number
big-endian across the tag bytes); any other tag value stops the
validation walk at the failing slice, after which the debug print's
`&e[..100]` panics when fewer than 100 bytes remain there and the run is
rejected as a corrupt-index failure (`InvalidIndex`) when at least 100
remain; and on the run bytes `02 00  02 01 2C  11 05 07` the iterator
yields `(page=300, item=0)` then `(page=5, item=7)`. -/
theorem c8_decode_table :
    (∀ b1 rest, decodeStep (1 :: b1 :: rest) = .ok (some (⟨b1, 0⟩, rest)))
    ∧ (∀ b1 b2 rest, decodeStep (2 :: b1 :: b2 :: rest) = .ok (some (⟨b1 * 256 + b2, 0⟩, rest)))
    ∧ (∀ b1 b2 b3 rest,
        decodeStep (4 :: b1 :: b2 :: b3 :: rest) =
          .ok (some (⟨b1 * 65536 + b2 * 256 + b3, 0⟩, rest)))
    ∧ (∀ b1 b2 rest, decodeStep (17 :: b1 :: b2 :: rest) = .ok (some (⟨b1, b2⟩, rest)))
    ∧ (∀ b1 b2 b3 rest,
        decodeStep (18 :: b1 :: b2 :: b3 :: rest) = .ok (some (⟨b1 * 256 + b2, b3⟩, rest)))
    ∧ (∀ t rest n, t ≠ 1 → t ≠ 2 → t ≠ 4 → t ≠ 17 → t ≠ 18 →
        checkRun (n + 1) (t :: rest) = .error (t :: rest))
    ∧ (∀ t rest, t ≠ 1 → t ≠ 2 → t ≠ 4 → t ≠ 17 → t ≠ 18 →
        (t :: rest).length < 100 →
        pageIterNew (1 :: 0 :: t :: rest) = .panic)
    ∧ (∀ t rest, t ≠ 1 → t ≠ 2 → t ≠ 4 → t ≠ 17 → t ≠ 18 →
        100 ≤ (t :: rest).length →
        pageIterNew (1 :: 0 :: t :: rest) = .err .InvalidIndex)
    ∧ (pageIterNew [2, 0, 2, 1, 44, 17, 5, 7] = .ok ⟨2, [2, 1, 44, 17, 5, 7]⟩
        ∧ drainTrace [2, 1, 44, 17, 5, 7] = .ok ([⟨300, 0⟩, ⟨5, 7⟩], 6)) := by
  refine ⟨?_, ?_, ?_, ?_, ?_, ?_, ?_, ?_, by constructor <;> rfl⟩
  · intro b1 rest
    simp [decodeStep, pid]
  · intro b1 b2 rest
    simp [decodeStep, pid]
  · intro b1 b2 b3 rest
    simp [decodeStep, pid]
  · intro b1 b2 rest
    simp [decodeStep, pid]
  · intro b1 b2 b3 rest
    simp [decodeStep, pid]
  · intro t rest n ht1 ht2 ht4 ht17 ht18
    exact checkRun_unknown_tag t rest n ht1 ht2 ht4 ht17 ht18
  · intro t rest ht1 ht2 ht4 ht17 ht18 hshort
    unfold pageIterNew
    split
    · rename_i hcon
      simp only [List.length_cons] at hcon
      omega
    · rw [show ((1 : Nat) :: 0 :: t :: rest).get! 0 +
          256 * ((1 : Nat) :: 0 :: t :: rest).get! 1 = 1 by rfl]
      rw [show ((1 : Nat) :: 0 :: t :: rest).drop 2 = t :: rest by rfl]
      rw [checkRun_unknown_tag t rest 0 ht1 ht2 ht4 ht17 ht18]
      exact if_pos hshort
  · intro t rest ht1 ht2 ht4 ht17 ht18 hlong
    unfold pageIterNew
    split
    · rename_i hcon
      simp only [List.length_cons] at hcon
      omega
    · rw [show ((1 : Nat) :: 0 :: t :: rest).get! 0 +
          256 * ((1 : Nat) :: 0 :: t :: rest).get! 1 = 1 by rfl]
      rw [show ((1 : Nat) :: 0 :: t :: rest).drop 2 = t :: rest by rfl]
      rw [checkRun_unknown_tag t rest 0 ht1 ht2 ht4 ht17 ht18]
      exact if_neg (by omega)

/-- Witness for C8 (amended): unknown tag 3 with 103 filler bytes — the
failing slice holds at least 100 bytes, so the run is rejected with
`InvalidIndex`; and the walk stops at that slice. -/
theorem c8_decode_table_witness :
    checkRun 1 (3 :: List.replicate 103 9) = .error (3 :: List.replicate 103 9) ∧
    pageIterNew (1 :: 0 :: 3 :: List.replicate 103 9) = .err .InvalidIndex :=
  ⟨c8_decode_table.2.2.2.2.2.1 3 (List.replicate 103 9) 0 (by decide) (by decide)
      (by decide) (by decide) (by decide),
    c8_decode_table.2.2.2.2.2.2.2.1 3 (List.replicate 103 9) (by decide) (by decide)
      (by decide) (by decide) (by decide) (by simp)⟩

/-- Continuation-byte test of UTF-8 (`0x80..=0xBF`). -/
def utf8Cont (c : Nat) : Bool := 0x80 ≤ c && c ≤ 0xBF

/-- Validity of a byte run as UTF-8, mirroring `str::from_utf8`
(RFC 3629: no overlong forms, no surrogates, max `U+10FFFF`). -/
def validUtf8 : List Nat → Bool
  | [] => true
  | b :: rest =>
    if b < 0x80 then validUtf8 rest
    else if 0xC2 ≤ b && b ≤ 0xDF then
      match rest with
      | c :: r => utf8Cont c && validUtf8 r
      | [] => false
    else if b = 0xE0 then
      match rest with
      | c :: d :: r => (0xA0 ≤ c && c ≤ 0xBF) && utf8Cont d && validUtf8 r
      | _ => false
    else if (0xE1 ≤ b && b ≤ 0xEC) || b = 0xEE || b = 0xEF then
      match rest with
      | c :: d :: r => utf8Cont c && utf8Cont d && validUtf8 r
      | _ => false
    else if b = 0xED then
      match rest with
      | c :: d :: r => (0x80 ≤ c && c ≤ 0x9F) && utf8Cont d && validUtf8 r
      | _ => false
    else if b = 0xF0 then
      match rest with
      | c :: d :: e :: r => (0x90 ≤ c && c ≤ 0xBF) && utf8Cont d && utf8Cont e && validUtf8 r
      | _ => false
    else if 0xF1 ≤ b && b ≤ 0xF3 then
      match rest with
      | c :: d :: e :: r => utf8Cont c && utf8Cont d && utf8Cont e && validUtf8 r
      | _ => false
    else if b = 0xF4 then
      match rest with
      | c :: d :: e :: r => (0x80 ≤ c && c ≤ 0x8F) && utf8Cont d && utf8Cont e && validUtf8 r
      | _ => false
    else false

example : validUtf8 [97, 98] = true := by rfl
example : validUtf8 [227, 129, 130] = true := by rfl
example : validUtf8 [0xC0, 0x80] = false := by rfl
example : validUtf8 [0xED, 0xA0, 0x80] = false := by rfl

/-- Structure `KeyIndex` of `src/key.rs`: one of the four orderings, `none` when the
corresponding offset in the index-set header was zero. The entries are the
`u32le` values of the loaded vector (the first entry is the length prefix). -/
structure KeyIndex where
  index : Option (List Nat)
  deriving DecidableEq, Repr

/-- Method `KeyIndex::get`: absent index → `IndexDoesntExist`; the slot is `i + 1`
because the array is prefixed by its length. -/
def KeyIndex.get (ki : KeyIndex) (i : Nat) : Except Error Nat :=
  match ki.index with
  | none => .error .IndexDoesntExist
  | some index =>
    if i + 1 ≥ index.length then .error .InvalidIndex
    else .ok (index.get! (i + 1))

/-- Method `KeyIndex::len`, that is `map(|v| v.len()).unwrap_or(0) - 1`. For an absent
index the `usize` subtraction `0 - 1` underflows; with release-build
wrapping it produces `2 ^ 64 - 1`. -/
def KeyIndex.len (ki : KeyIndex) : Nat :=
  ((ki.index.map List.length).getD 0 + USIZE - 1) % USIZE

/-- Structure `Keys` of `src/key.rs`: `words` is the words region as bytes;
`index_pre` and `index_suf` are the source's `index_prefix` / `index_suffix`. -/
structure Keys where
  words : List Nat
  index_len : KeyIndex
  index_pre : KeyIndex
  index_suf : KeyIndex
  index_d : KeyIndex
  deriving DecidableEq, Repr

/-- Little-endian `u32` read at byte offset `off` (callers guard bounds). -/
def le32At (w : List Nat) (off : Nat) : Nat :=
  w.get! off + 256 * w.get! (off + 1) + 65536 * w.get! (off + 2) +
    16777216 * w.get! (off + 3)

/-- Method `Keys::get_word_span`: bounds-check 8 bytes, read the `u32le`
`pages_offset`, skip the length byte, take the key up to the first null
(`split(..).next()` on a slice always yields that first segment), and
require it to be UTF-8. -/
def getWordSpan (k : Keys) (offset : Nat) : Except Error (List Nat × Nat) :=
  if k.words.length < offset + 8 then .error .InvalidIndex
  else
    if validUtf8 ((k.words.drop (offset + 5)).takeWhile (fun b => b != 0)) then
      .ok ((k.words.drop (offset + 5)).takeWhile (fun b => b != 0), le32At k.words offset)
    else .error .Utf8Error

/-- Method `Keys::get_page_iter`: slicing `words[pages_offset..]` panics past the
end, then `PageIter::new` runs on the tail. -/
def getPageIter (k : Keys) (pages_offset : Nat) : Outcome PIter :=
  if k.words.length < pages_offset then .panic
  else pageIterNew (k.words.drop pages_offset)

/-- Method `Keys::get_idx`: bounds-check against `index.len()`, fetch the word
offset, decode the word span, and build the page iterator. -/
def getIdx (k : Keys) (index : KeyIndex) (idx : Nat) : Outcome (List Nat × PIter) :=
  if idx ≥ KeyIndex.len index then .err .NotFound
  else
    match KeyIndex.get index idx with
    | .error e => .err e
    | .ok word_offset =>
      match getWordSpan k word_offset with
      | .error e => .err e
      | .ok (word, pages_offset) =>
        match getPageIter k pages_offset with
        | .ok pages => .ok (word, pages)
        | .err e => .err e
        | .panic => .panic
        | .diverge => .diverge

/-- Method `Keys::cmp_key`: compare the stored key at prefix-index slot `idx`
against `target`, including the terminating null (an equal prefix with a
longer stored key reports `Greater`). -/
def cmpKey (k : Keys) (target : List Nat) (idx : Nat) : Except Error Ordering :=
  match KeyIndex.get k.index_pre idx with
  | .error e => .error e
  | .ok woff =>
    if k.words.length < woff + 4 + 1 + target.length + 1 then .error .InvalidIndex
    else
      match compareBytes ((k.words.drop (woff + 4 + 1)).take target.length) target with
      | .eq =>
        if (k.words.drop (woff + 4 + 1)).get! target.length = 0 then .ok .eq else .ok .gt
      | ord => .ok ord

/-- Function `to_katakana` (`src/key.rs`) on Unicode scalar values: code points in
`U+3041..=U+3093` are shifted by `0x60`. The source's `Cow` optimization
copies the prefix before the first such code point unchanged and maps the
rest; since the map is the identity outside the range, that equals mapping
every code point. -/
def toKatakana (input : List Nat) : List Nat :=
  input.map (fun c => if 0x3041 ≤ c ∧ c ≤ 0x3093 then c + 0x60 else c)

/-- UTF-8 encoding of one Unicode scalar value. -/
def utf8EncodeChar (c : Nat) : List Nat :=
  if c < 0x80 then [c]
  else if c < 0x800 then [0xC0 + c / 64, 0x80 + c % 64]
  else if c < 0x10000 then [0xE0 + c / 4096, 0x80 + c / 64 % 64, 0x80 + c % 64]
  else [0xF0 + c / 262144, 0x80 + c / 4096 % 64, 0x80 + c / 64 % 64, 0x80 + c % 64]

/-- UTF-8 encoding of a sequence of scalar values (`str::as_bytes`). -/
def utf8Encode (s : List Nat) : List Nat := (s.map utf8EncodeChar).flatten

example : utf8Encode (toKatakana [0x3042]) = [227, 130, 162] := by rfl

/-- The binary-search loop of `Keys::search_exact`, with `usize` updates
wrapping modulo `2 ^ 64` (`high = mid - 1` underflows when `mid == 0`).
The `fuel` argument is an iteration budget; `diverge` marks its
exhaustion and is unreachable for any realistically-sized index. -/
def searchLoop (k : Keys) (target : List Nat) : Nat → Nat → Nat → Outcome (Nat × PIter)
  | 0, _, _ => .diverge
  | fuel + 1, low, high =>
    if low ≤ high then
      let mid := low + (high - low) / 2
      match cmpKey k target mid with
      | .error e => .err e
      | .ok .lt => searchLoop k target fuel ((mid + 1) % USIZE) high
      | .ok .gt => searchLoop k target fuel low ((mid + USIZE - 1) % USIZE)
      | .ok .eq =>
        match getIdx k k.index_pre mid with
        | .ok (_, pages) => .ok (mid, pages)
        | .err e => .err e
        | .panic => .panic
        | .diverge => .diverge
    else .err .NotFound

/-- Iteration budget of the modelled `search_exact` loop. -/
def SEARCH_FUEL : Nat := 4096

/-- Method `Keys::search_exact`: katakana-fold the query, then binary-search the
prefix ordering from `low = 0`, `high = index_prefix.len()`. -/
def searchExact (k : Keys) (query : List Nat) : Outcome (Nat × PIter) :=
  searchLoop k (utf8Encode (toKatakana query)) SEARCH_FUEL 0 (KeyIndex.len k.index_pre)

/-- Keystore with words region holding the single key `"a"` (`0x61`) and a
prefix index of one entry at word offset 0. -/
def keysC2 : Keys :=
  ⟨[0, 0, 0, 0, 1, 97, 0, 0], ⟨none⟩, ⟨some [1, 0]⟩, ⟨none⟩, ⟨none⟩⟩

example : searchExact keysC2 [98] = .err .InvalidIndex := by rfl
example : KeyIndex.len (Keys.index_pre keysC2) = 1 := by rfl

/-- Keystore whose words region holds the single key `"b"` (`0x62`): a
query ordering before it drives `high = mid - 1` through the `usize`
underflow at `mid = 0`. -/
def keysC2b : Keys :=
  ⟨[0, 0, 0, 0, 1, 98, 0, 0], ⟨none⟩, ⟨some [1, 0]⟩, ⟨none⟩, ⟨none⟩⟩

example : searchExact keysC2b [97] = .err .InvalidIndex := by rfl

/-- C2 evaluated at the failing input: on a keystore whose prefix index
holds the single (sorted) key `"a"`, `search_exact("b")` — a query that is
absent, ordering after the last key — returns `InvalidIndex`, not the
`NotFound` the claim requires: the loop runs with `high = len()` inclusive,
so the final probe indexes one past the last slot. (A query ordering before
the first key underflows `high = mid - 1` instead: a debug build panics and
a release build wraps into the same out-of-range `InvalidIndex` probe.)
The last conjunct shows the fixture keystore is intact: its single key is
retrievable through `get_idx`. -/
theorem c2_search_exact_invalid_index :
    searchExact keysC2 [98] = .err .InvalidIndex ∧
    Error.InvalidIndex ≠ Error.NotFound ∧
    getIdx keysC2 keysC2.index_pre 0 = .ok ([97], ⟨0, []⟩) ∧
    searchExact keysC2b [97] = .err .InvalidIndex := by
  refine ⟨by rfl, by decide, by rfl, by rfl⟩

theorem getWordSpan_ne_IDE (k : Keys) (off : Nat) :
    getWordSpan k off ≠ .error .IndexDoesntExist := by
  unfold getWordSpan
  split
  · simp
  · split <;> simp

theorem pageIterNew_ne_IDE (pages : List Nat) :
    pageIterNew pages ≠ .err .IndexDoesntExist := by
  unfold pageIterNew
  split
  · simp
  · split
    · split <;> simp
    · simp

theorem getPageIter_ne_IDE (k : Keys) (off : Nat) :
    getPageIter k off ≠ .err .IndexDoesntExist := by
  unfold getPageIter
  split
  · simp
  · exact pageIterNew_ne_IDE _

/-- C5 amended. -/
theorem c5_absent_ordering :
    (∀ i, KeyIndex.get ⟨none⟩ i = .error .IndexDoesntExist)
    ∧ (∀ (k : Keys) (i : Nat), i < 2 ^ 64 - 1 → getIdx k ⟨none⟩ i = .err .IndexDoesntExist)
    ∧ (∀ (v : List Nat) (i : Nat), KeyIndex.get ⟨some v⟩ i ≠ .error .IndexDoesntExist)
    ∧ (∀ (k : Keys) (v : List Nat) (i : Nat), getIdx k ⟨some v⟩ i ≠ .err .IndexDoesntExist) := by
  have hget : ∀ (v : List Nat) (i : Nat), KeyIndex.get ⟨some v⟩ i ≠ .error .IndexDoesntExist := by
    intro v i
    unfold KeyIndex.get
    dsimp only
    split <;> simp
  refine ⟨fun i => rfl, ?_, hget, ?_⟩
  · intro k i hi
    unfold getIdx
    have hlen : KeyIndex.len (⟨none⟩ : KeyIndex) = 2 ^ 64 - 1 := by
      unfold KeyIndex.len USIZE
      norm_num
    rw [hlen, if_neg (by omega)]
    rfl
  · intro k v i
    unfold getIdx
    split
    · simp
    · rcases hk : KeyIndex.get (⟨some v⟩ : KeyIndex) i with e | woff
      · have he : e ≠ .IndexDoesntExist := fun hcon => hget v i (hk.trans (by rw [hcon]))
        simp [hk, he]
      · rcases hw : getWordSpan k woff with e | ⟨word, poff⟩
        · have he : e ≠ .IndexDoesntExist := fun hcon =>
            getWordSpan_ne_IDE k woff (hw.trans (by rw [hcon]))
          simp [hk, hw, he]
        · rcases hp : getPageIter k poff with pages | e | _ | _
          · simp [hk, hw, hp]
          · have he : e ≠ .IndexDoesntExist := fun hcon =>
              getPageIter_ne_IDE k poff (hp.trans (by rw [hcon]))
            simp [hk, hw, hp, he]
          · simp [hk, hw, hp]
          · simp [hk, hw, hp]

/-- Keystore value with all four orderings absent (all index-set offsets
zero would already fail `read_vec`'s guard for `index_a`; what matters here
is `KeyIndex { index: None }` as produced for any zero offset). -/
def keysC5 : Keys := ⟨[], ⟨none⟩, ⟨none⟩, ⟨none⟩, ⟨none⟩⟩

/-- Counterexample to C5 as stated: through an absent ordering,
`KeyIndex::len()` computes `0usize - 1`, which wraps to `2^64 - 1`
(release semantics; a debug build panics right there), so `get_idx` at
`idx = 2^64 - 1` short-circuits to `NotFound` — not `IndexDoesntExist`. -/
theorem c5_counterexample :
    getIdx keysC5 keysC5.index_len (2 ^ 64 - 1) = .err .NotFound ∧
    Error.NotFound ≠ Error.IndexDoesntExist := ⟨by rfl, by decide⟩

/-- Witness for C5 (amended) at index 0 of an absent ordering. -/
theorem c5_absent_ordering_witness :
    getIdx keysC5 ⟨none⟩ 0 = .err .IndexDoesntExist :=
  c5_absent_ordering.2.1 keysC5 0 (by norm_num)

/-- C10: `Keys::get_page_iter` / `PageIter::new` panic — rather than
returning an error — whenever fewer than 2 bytes remain at `pages_offset`
(including `pages_offset` past the end of the words region): the slice
`words[pages_offset..]` and the `split_at(2)` count read carry no bounds
check that could produce `InvalidIndex`. -/
theorem c10_count_read_unguarded (k : Keys) (pages_offset : Nat)
    (h : k.words.length < pages_offset + 2) :
    getPageIter k pages_offset = .panic := by
  unfold getPageIter
  split
  · rfl
  · rename_i hin
    have hlt : (k.words.drop pages_offset).length < 2 := by
      simp only [List.length_drop]
      omega
    unfold pageIterNew
    rw [if_pos hlt]

/-- Witness for C10 at the empty words region. -/
theorem c10_count_read_unguarded_witness : getPageIter keysC5 0 = .panic :=
  c10_count_read_unguarded keysC5 0 (by decide)

/-- The core loop of `<[T]>::binary_search_by`: probe the midpoint
`left + (right - left) / 2`, narrow to the right on `Less`, to the left on
`Greater`, return `Ok(mid)` on `Equal`, and `Err(left)` (the insertion
point) once the window empties. The first argument is an iteration budget:
every iteration shrinks the window, so a budget of at least the initial
window size (which every call site supplies) is never exhausted and the
budget-exhausted arm (which repeats the loop's post-condition) is dead. -/
def bsearchLoop (f : Nat → Ordering) : Nat → Nat → Nat → Except Nat Nat
  | 0, left, _ => .error left
  | fuel + 1, left, right =>
    if left < right then
      match f (left + (right - left) / 2) with
      | .lt => bsearchLoop f fuel (left + (right - left) / 2 + 1) right
      | .gt => bsearchLoop f fuel left (left + (right - left) / 2)
      | .eq => .ok (left + (right - left) / 2)
    else .error left

/-- A successful search probes inside the window and found `Equal`. -/
theorem bsearchLoop_ok (f : Nat → Ordering) :
    ∀ d left right i : Nat, right - left ≤ d → bsearchLoop f d left right = .ok i →
      left ≤ i ∧ i < right ∧ f i = .eq := by
  intro d
  induction d with
  | zero =>
    intro left right i hd h
    rw [bsearchLoop] at h
    exact absurd h (by simp)
  | succ d ih =>
    intro left right i hd h
    rw [bsearchLoop] at h
    split at h
    · rename_i hlr
      split at h
      · have := ih (left + (right - left) / 2 + 1) right i (by omega) h
        refine ⟨by omega, this.2.1, this.2.2⟩
      · have := ih left (left + (right - left) / 2) i (by omega) h
        refine ⟨this.1, by omega, this.2.2⟩
      · rename_i heq
        cases h
        exact ⟨by omega, by omega, heq⟩
    · exact absurd h (by simp)

/-- A failed search means no `Equal` probe exists in the window, provided
the comparator is monotone below `n` and the window stays below `n`. -/
theorem bsearchLoop_err (f : Nat → Ordering) (n : Nat)
    (Hlt : ∀ i j, i ≤ j → j < n → f j = .lt → f i = .lt)
    (Hgt : ∀ i j, i ≤ j → j < n → f i = .gt → f j = .gt) :
    ∀ d left right p : Nat, right - left ≤ d → right ≤ n →
      bsearchLoop f d left right = .error p →
      ∀ i, left ≤ i → i < right → f i ≠ .eq := by
  intro d
  induction d with
  | zero =>
    intro left right p hd hn h i hli hir
    omega
  | succ d ih =>
    intro left right p hd hn h i hli hir
    rw [bsearchLoop] at h
    split at h
    · rename_i hlr
      split at h
      · rename_i hmid
        by_cases hcase : i ≤ left + (right - left) / 2
        · intro hcon
          have := Hlt i (left + (right - left) / 2) hcase (by omega) hmid
          rw [hcon] at this
          exact absurd this (by simp)
        · exact ih (left + (right - left) / 2 + 1) right p (by omega) hn h i (by omega) hir
      · rename_i hmid
        by_cases hcase : i < left + (right - left) / 2
        · exact ih left (left + (right - left) / 2) p (by omega) (by omega) h i hli hcase
        · intro hcon
          have := Hgt (left + (right - left) / 2) i (by omega) (by omega) hmid
          rw [hcon] at this
          exact absurd this (by simp)
      · exact absurd h (by simp)
    · omega

/-- Record `IdxRecord` of `src/resource/rsc.rs`. -/
structure IdxRecord where
  item_id : Nat
  map_idx : Nat
  deriving DecidableEq, Repr, Inhabited

/-- Record `MapRecord` of `src/resource/rsc.rs`. -/
structure MapRecord where
  zoffset : Nat
  ioffset : Nat
  deriving DecidableEq, Repr, Inhabited

/-- Structure `RscIndex` of `src/resource/rsc.rs`: the optional `.idx` item index and
the mandatory `.map` compression map. -/
structure RscIndex where
  idx : Option (List IdxRecord)
  map : List MapRecord
  deriving DecidableEq, Repr

/-- Method `RscIndex::get_map_idx_by_id`: no index → the id is its own map index;
otherwise try the two guess slots, then binary-search by `item_id`, and
bounds-check the resulting `map_idx` field (only on the search path). -/
def getMapIdxById (r : RscIndex) (id : Nat) : Except Error Nat :=
  match r.idx with
  | none => .ok id
  | some idx_list =>
    if idx_list.isEmpty then .error .NotFound
    else if (idx_list.get! (min id (idx_list.length - 1))).item_id = id then
      .ok (min id (idx_list.length - 1))
    else if (idx_list.get! (min (id - 1) (idx_list.length - 1))).item_id = id then
      .ok (min (id - 1) (idx_list.length - 1))
    else
      match bsearchLoop (fun j => compareNat (idx_list.get! j).item_id id)
          idx_list.length 0 idx_list.length with
      | .ok pos =>
        if (idx_list.get! pos).map_idx ≥ r.map.length then .error .IndexMismach
        else .ok (idx_list.get! pos).map_idx
      | .error _ => .error .NotFound

/-- Method `RscIndex::get_by_id`, whose body runs `self.map[idx]` — a plain index expression, so an
out-of-range resolved index panics. -/
def getById (r : RscIndex) (id : Nat) : Outcome MapRecord :=
  match getMapIdxById r id with
  | .error e => .err e
  | .ok i => if i < r.map.length then .ok (r.map.get! i) else .panic

/-- Strict sortedness of the item index by `item_id`. -/
def sortedByItemId : List IdxRecord → Bool
  | [] => true
  | [_] => true
  | a :: b :: rest => a.item_id < b.item_id && sortedByItemId (b :: rest)

theorem sortedByItemId_tail {a : IdxRecord} {l : List IdxRecord}
    (h : sortedByItemId (a :: l) = true) : sortedByItemId l = true := by
  cases l with
  | nil => rfl
  | cons b rest =>
    unfold sortedByItemId at h
    exact (Bool.and_eq_true_iff.mp h).2

theorem sorted_head_lt {x : IdxRecord} {xs : List IdxRecord}
    (h : sortedByItemId (x :: xs) = true) :
    ∀ j, j < xs.length → x.item_id < (xs.get! j).item_id := by
  induction xs generalizing x with
  | nil => intro j hj; simp at hj
  | cons y ys ih =>
    intro j hj
    have hxy : x.item_id < y.item_id := by
      have h' := h
      unfold sortedByItemId at h'
      simp only [Bool.and_eq_true, decide_eq_true_eq] at h'
      exact h'.1
    cases j with
    | zero => simpa using hxy
    | succ j =>
      have := ih (sortedByItemId_tail h) j (by simpa using hj)
      calc x.item_id < y.item_id := hxy
        _ < ((y :: ys).get! (j + 1)).item_id := by simpa using this

theorem sorted_get_lt {l : List IdxRecord} (h : sortedByItemId l = true) :
    ∀ i j, i < j → j < l.length → (l.get! i).item_id < (l.get! j).item_id := by
  induction l with
  | nil => intro i j hij hj; simp at hj
  | cons x xs ih =>
    intro i j hij hj
    cases i with
    | zero =>
      cases j with
      | zero => omega
      | succ j =>
        have := sorted_head_lt h j (by simpa using hj)
        simpa using this
    | succ i =>
      cases j with
      | zero => omega
      | succ j =>
        have := ih (sortedByItemId_tail h) i j (by omega) (by simpa using hj)
        simpa using this

theorem compareNat_eq_lt {a b : Nat} : compareNat a b = .lt ↔ a < b := by
  unfold compareNat
  split
  · simp_all
  · split <;> simp_all

theorem compareNat_eq_gt {a b : Nat} : compareNat a b = .gt ↔ b < a := by
  unfold compareNat
  split
  · simp_all
    omega
  · split <;> simp_all

theorem compareNat_eq_eq {a b : Nat} : compareNat a b = .eq ↔ a = b := by
  unfold compareNat
  split
  · simp_all
    omega
  · split <;> simp_all <;> omega

/-- C1 evaluated at the failing input: with no `.idx` file the id is used
directly as the map index, but for `id` at or past the map length
`RscIndex::get_by_id` runs `self.map[idx]` — an unchecked index that
panics; it does not return `InvalidIndex` as the claim states. The last
conjunct records that the failing id is exactly the claim's boundary
`id ≥ map.len()`. -/
theorem c1_no_idx :
    getById ⟨none, [⟨0, 0⟩]⟩ 0 = .ok ⟨0, 0⟩ ∧ getById ⟨none, [⟨0, 0⟩]⟩ 1 = .panic ∧
    (1 : Nat) ≥ ([(⟨0, 0⟩ : MapRecord)] : List MapRecord).length := ⟨by rfl, by rfl, by decide⟩

/-- C6 counterexample fixture: two sorted index records sharing
`map_idx = 0`, so record position and `map_idx` field disagree at
position 1. -/
def rscC6 : RscIndex := ⟨some [⟨1, 0⟩, ⟨2, 0⟩], [⟨0, 0⟩, ⟨99, 99⟩]⟩

/-- Counterexample to C6 as stated: the record with `item_id = 2` carries
`map_idx = 0`, whose map record is `(0,0)`; but `get(2)` hits the first
guess slot (position 1) and returns `map[1] = (99,99)` — the guess paths
return the record position, not the `map_idx` field the claim names. -/
theorem c6_counterexample :
    getById rscC6 2 = .ok ⟨99, 99⟩ ∧
    ((rscC6.idx.getD []).get! 1).item_id = 2 ∧
    rscC6.map.get! ((rscC6.idx.getD []).get! 1).map_idx = ⟨0, 0⟩ ∧
    (MapRecord.mk 99 99) ≠ (MapRecord.mk 0 0) ∧
    sortedByItemId (rscC6.idx.getD []) = true :=
  ⟨by rfl, by rfl, by rfl, by decide, by rfl⟩

/-- C6 amended: for a present, sorted, nonempty item index — if the guess
slot `min(id, len-1)` (or, failing that, `min(id-1, len-1)`) holds
`item_id == id`, the resolver returns that slot position itself; only when
both guesses miss does it binary-search, and then it returns the matching
record's `map_idx` field when that is within the map array and
`IndexMismach` otherwise; when no record matches it returns `NotFound`;
and `get_by_id` indexes the map with the resolved value, panicking when it
is out of range. (On the S4 fixture, whose `map_idx` fields equal the
positions, this yields `get(500) = (0,20)` and `get(501) = NotFound`,
checked by the `rscS4` examples.) -/
theorem c6_amended (r : RscIndex) (l : List IdxRecord) (id : Nat)
    (hidx : r.idx = some l) (hsort : sortedByItemId l = true) (hne : l ≠ []) :
    ((l.get! (min id (l.length - 1))).item_id = id →
      getMapIdxById r id = .ok (min id (l.length - 1)))
    ∧ ((l.get! (min id (l.length - 1))).item_id ≠ id →
       (l.get! (min (id - 1) (l.length - 1))).item_id = id →
      getMapIdxById r id = .ok (min (id - 1) (l.length - 1)))
    ∧ (∀ j, (l.get! (min id (l.length - 1))).item_id ≠ id →
        (l.get! (min (id - 1) (l.length - 1))).item_id ≠ id →
        j < l.length → (l.get! j).item_id = id →
        getMapIdxById r id =
          (if (l.get! j).map_idx < r.map.length then .ok (l.get! j).map_idx
           else .error .IndexMismach))
    ∧ ((∀ j, j < l.length → (l.get! j).item_id ≠ id) →
        getMapIdxById r id = .error .NotFound)
    ∧ (∀ i, getMapIdxById r id = .ok i →
        getById r id = if i < r.map.length then .ok (r.map.get! i) else .panic) := by
  have hnonempty : l.isEmpty = false := by
    cases l with
    | nil => exact absurd rfl hne
    | cons a t => rfl
  have hlen : 0 < l.length := by
    cases l with
    | nil => exact absurd rfl hne
    | cons a t => simp
  have Hlt : ∀ i j, i ≤ j → j < l.length →
      compareNat (l.get! j).item_id id = .lt → compareNat (l.get! i).item_id id = .lt := by
    intro i j hij hj hcmp
    rw [compareNat_eq_lt] at hcmp ⊢
    rcases Nat.lt_or_ge i j with hlt | hge
    · exact lt_of_le_of_lt (le_of_lt (sorted_get_lt hsort i j hlt hj)) hcmp
    · have : i = j := by omega
      rw [this]
      exact hcmp
  have Hgt : ∀ i j, i ≤ j → j < l.length →
      compareNat (l.get! i).item_id id = .gt → compareNat (l.get! j).item_id id = .gt := by
    intro i j hij hj hcmp
    rw [compareNat_eq_gt] at hcmp ⊢
    rcases Nat.lt_or_ge i j with hlt | hge
    · exact lt_of_lt_of_le hcmp (le_of_lt (sorted_get_lt hsort i j hlt hj))
    · have : i = j := by omega
      rw [this] at hcmp
      exact hcmp
  refine ⟨?_, ?_, ?_, ?_, ?_⟩
  · intro hg1
    unfold getMapIdxById
    rw [hidx]
    simp only [hnonempty, Bool.false_eq_true, if_false, if_pos hg1]
  · intro hg1 hg2
    unfold getMapIdxById
    rw [hidx]
    simp only [hnonempty, Bool.false_eq_true, if_false, if_neg hg1, if_pos hg2]
  · intro j hg1 hg2 hj hjid
    unfold getMapIdxById
    rw [hidx]
    simp only [hnonempty, Bool.false_eq_true, if_false, if_neg hg1, if_neg hg2]
    rcases hbs : bsearchLoop (fun j => compareNat (l.get! j).item_id id) l.length 0 l.length
        with p | pos
    · exact absurd (compareNat_eq_eq.mpr hjid)
        (bsearchLoop_err _ l.length Hlt Hgt l.length 0 l.length p (by omega) (le_refl _)
          hbs j (by omega) hj)
    · obtain ⟨-, hposlt, hposeq⟩ :=
        bsearchLoop_ok _ l.length 0 l.length pos (by omega) hbs
    -- the found slot and `j` both carry `item_id = id`; strict sortedness forces them equal
      have hpos_id : (l.get! pos).item_id = id := compareNat_eq_eq.mp hposeq
      have hpj : pos = j := by
        rcases Nat.lt_trichotomy pos j with hlt | heq | hgt
        · have := sorted_get_lt hsort pos j hlt hj
          omega
        · exact heq
        · have := sorted_get_lt hsort j pos hgt hposlt
          omega
      rw [hpj]
      dsimp only
      by_cases hmap : (l.get! j).map_idx < r.map.length
      · rw [if_neg (show ¬(l.get! j).map_idx ≥ r.map.length by omega), if_pos hmap]
      · rw [if_pos (show (l.get! j).map_idx ≥ r.map.length by omega), if_neg hmap]
  · intro hnone
    unfold getMapIdxById
    rw [hidx]
    have hg1 : (l.get! (min id (l.length - 1))).item_id ≠ id :=
      hnone (min id (l.length - 1)) (by omega)
    have hg2 : (l.get! (min (id - 1) (l.length - 1))).item_id ≠ id :=
      hnone (min (id - 1) (l.length - 1)) (by omega)
    simp only [hnonempty, Bool.false_eq_true, if_false, if_neg hg1, if_neg hg2]
    rcases hbs : bsearchLoop (fun j => compareNat (l.get! j).item_id id) l.length 0 l.length
        with p | pos
    · rfl
    · obtain ⟨-, hposlt, hposeq⟩ :=
        bsearchLoop_ok _ l.length 0 l.length pos (by omega) hbs
      exact absurd (compareNat_eq_eq.mp hposeq) (hnone pos hposlt)
  · intro i hok
    unfold getById
    rw [hok]

/-- Witness for C6 (amended): guess-slot hit. -/
theorem c6_amended_witness :
    getMapIdxById ⟨some [⟨5, 0⟩], [⟨7, 8⟩]⟩ 5 = .ok 0 :=
  (c6_amended ⟨some [⟨5, 0⟩], [⟨7, 8⟩]⟩ [⟨5, 0⟩] 5 rfl (by rfl) (by simp)).1 (by rfl)

/-- S4 scenario fixture from the spec (and the source's own test). -/
def rscS4 : RscIndex :=
  ⟨some [⟨1, 0⟩, ⟨2, 1⟩, ⟨500, 2⟩, ⟨1000, 3⟩], [⟨0, 0⟩, ⟨0, 10⟩, ⟨0, 20⟩, ⟨10, 0⟩]⟩

example : getById rscS4 500 = .ok ⟨0, 20⟩ := by rfl
example : getById rscS4 501 = .err .NotFound := by rfl

/-- Structure `ResourceFile` of `src/resource.rs`, as used by `file_offset`
(`src/resource/rsc.rs`): sequence number, byte length, and cumulative
starting offset (the open file handle carries no logical state). -/
structure Seg where
  seqnum : Nat
  len : Nat
  offset : Nat
  deriving DecidableEq, Repr, Inhabited

/-- Function `cmp_range` of `src/resource/rsc.rs`: membership of `num` in the
half-open range `[start, stop)` as a three-way comparison. -/
def cmpRange (num start stop : Nat) : Ordering :=
  if num < start then .lt else if stop ≤ num then .gt else .eq

/-- Function `file_offset` of `src/resource/rsc.rs`: binary-search the segments with
the reversed range comparison; on success return the segment and the local
offset `offset - seg.offset`. -/
def fileOffset (contents : List Seg) (offset : Nat) : Except Error (Seg × Nat) :=
  match bsearchLoop
      (fun i => (cmpRange offset (contents.get! i).offset
        ((contents.get! i).offset + (contents.get! i).len)).swap)
      contents.length 0 contents.length with
  | .ok i => .ok (contents.get! i, offset - (contents.get! i).offset)
  | .error _ => .error .InvalidIndex

/-- The segments carry cumulative offsets starting from `o` (as `Rsc::files`
constructs them: each segment's offset is the sum of the prior lengths). -/
def cumulativeFrom : Nat → List Seg → Bool
  | _, [] => true
  | o, s :: rest => s.offset == o && cumulativeFrom (o + s.len) rest

theorem cumulative_lb :
    ∀ (fs : List Seg) (o : Nat), cumulativeFrom o fs = true →
      ∀ i, i < fs.length → o ≤ (fs.get! i).offset := by
  intro fs
  induction fs with
  | nil => intro o h i hi; simp at hi
  | cons s rest ih =>
    intro o h i hi
    unfold cumulativeFrom at h
    simp only [Bool.and_eq_true, beq_iff_eq] at h
    cases i with
    | zero => simp [h.1]
    | succ i =>
      have := ih (o + s.len) h.2 i (by simpa using hi)
      calc o ≤ o + s.len := by omega
        _ ≤ ((s :: rest).get! (i + 1)).offset := by simpa using this

theorem cumulative_adj :
    ∀ (fs : List Seg) (o : Nat), cumulativeFrom o fs = true →
      ∀ i j, i < j → j < fs.length →
        (fs.get! i).offset + (fs.get! i).len ≤ (fs.get! j).offset := by
  intro fs
  induction fs with
  | nil => intro o h i j hij hj; simp at hj
  | cons s rest ih =>
    intro o h i j hij hj
    unfold cumulativeFrom at h
    simp only [Bool.and_eq_true, beq_iff_eq] at h
    cases i with
    | zero =>
      cases j with
      | zero => omega
      | succ j =>
        have := cumulative_lb rest (o + s.len) h.2 j (by simpa using hj)
        simp only [List.get!_cons_zero, List.get!_cons_succ]
        omega
    | succ i =>
      cases j with
      | zero => omega
      | succ j =>
        have := ih (o + s.len) h.2 i j (by omega) (by simpa using hj)
        simpa using this

theorem get!_mem : ∀ (l : List Seg) (i : Nat), i < l.length → l.get! i ∈ l := by
  intro l
  induction l with
  | nil => intro i hi; simp at hi
  | cons s rest ih =>
    intro i hi
    cases i with
    | zero => simp
    | succ i =>
      have := ih i (by simpa using hi)
      simp only [List.get!_cons_succ]
      exact List.mem_cons_of_mem s this

theorem cmpRange_lt_iff {n a b : Nat} : cmpRange n a b = .lt ↔ n < a := by
  unfold cmpRange
  split
  · simp_all
  · split <;> simp_all

theorem cmpRange_gt_iff {n a b : Nat} (hab : a ≤ b) : cmpRange n a b = .gt ↔ b ≤ n := by
  unfold cmpRange
  split
  · simp_all
    omega
  · split <;> simp_all

theorem cmpRange_eq_iff {n a b : Nat} : cmpRange n a b = .eq ↔ a ≤ n ∧ n < b := by
  unfold cmpRange
  split
  · simp_all
  · split
    · simp_all
    · simp_all

theorem swap_eq_lt {o : Ordering} : o.swap = .lt ↔ o = .gt := by
  cases o <;> simp [Ordering.swap]

theorem swap_eq_gt {o : Ordering} : o.swap = .gt ↔ o = .lt := by
  cases o <;> simp [Ordering.swap]

theorem swap_eq_eq {o : Ordering} : o.swap = .eq ↔ o = .eq := by
  cases o <;> simp [Ordering.swap]

/-- C9: `cmp_range` is the three-way membership test of the half-open range
`[a, b)` (`Less` iff `n < a`, `Equal` iff `a ≤ n < b`, and — for ordered
endpoints `a ≤ b`, which every range the locator builds satisfies —
`Greater` iff `b ≤ n`); and for a segment set with cumulative offsets,
`file_offset(g)` succeeds iff some segment's range `[offset, offset+len)`
contains `g`, in which case it returns that very segment with a local
offset satisfying `offset + local = g`, and otherwise fails with
`InvalidIndex`. -/
theorem c9_locate :
    (∀ n a b : Nat,
      (cmpRange n a b = .lt ↔ n < a)
      ∧ (cmpRange n a b = .eq ↔ a ≤ n ∧ n < b)
      ∧ (a ≤ b → (cmpRange n a b = .gt ↔ b ≤ n)))
    ∧ (∀ (files : List Seg) (g : Nat), cumulativeFrom 0 files = true →
        ((∃ i, i < files.length ∧ (files.get! i).offset ≤ g ∧
            g < (files.get! i).offset + (files.get! i).len) ↔
          (∃ s loc, fileOffset files g = .ok (s, loc)))
        ∧ (∀ s loc, fileOffset files g = .ok (s, loc) →
            s ∈ files ∧ s.offset ≤ g ∧ g < s.offset + s.len ∧ s.offset + loc = g)
        ∧ ((∀ i, i < files.length → ¬((files.get! i).offset ≤ g ∧
              g < (files.get! i).offset + (files.get! i).len)) →
            fileOffset files g = .error .InvalidIndex)) := by
  refine ⟨fun n a b => ⟨cmpRange_lt_iff, cmpRange_eq_iff, fun hab => cmpRange_gt_iff hab⟩, ?_⟩
  intro files g hcum
  have Hlt : ∀ i j, i ≤ j → j < files.length →
      (cmpRange g (files.get! j).offset
        ((files.get! j).offset + (files.get! j).len)).swap = .lt →
      (cmpRange g (files.get! i).offset
        ((files.get! i).offset + (files.get! i).len)).swap = .lt := by
    intro i j hij hj hcmp
    rw [swap_eq_lt, cmpRange_gt_iff (Nat.le_add_right _ _)] at hcmp
    rw [swap_eq_lt, cmpRange_gt_iff (Nat.le_add_right _ _)]
    rcases Nat.lt_or_ge i j with hlt | hge
    · have := cumulative_adj files 0 hcum i j hlt hj
      omega
    · have : i = j := by omega
      rw [this]
      exact hcmp
  have Hgt : ∀ i j, i ≤ j → j < files.length →
      (cmpRange g (files.get! i).offset
        ((files.get! i).offset + (files.get! i).len)).swap = .gt →
      (cmpRange g (files.get! j).offset
        ((files.get! j).offset + (files.get! j).len)).swap = .gt := by
    intro i j hij hj hcmp
    rw [swap_eq_gt, cmpRange_lt_iff] at hcmp
    rw [swap_eq_gt, cmpRange_lt_iff]
    rcases Nat.lt_or_ge i j with hlt | hge
    · have := cumulative_adj files 0 hcum i j hlt hj
      omega
    · have : i = j := by omega
      rw [this] at hcmp
      exact hcmp
  rcases hbs : bsearchLoop
      (fun i => (cmpRange g (files.get! i).offset
        ((files.get! i).offset + (files.get! i).len)).swap)
      files.length 0 files.length with p | i
  · have hnoeq := bsearchLoop_err _ files.length Hlt Hgt files.length 0 files.length p
      (by omega) (le_refl _) hbs
    refine ⟨?_, ?_, ?_⟩
    · constructor
      · rintro ⟨i, hi, hc1, hc2⟩
        have : (cmpRange g (files.get! i).offset
            ((files.get! i).offset + (files.get! i).len)).swap = .eq := by
          rw [swap_eq_eq, cmpRange_eq_iff]
          exact ⟨hc1, hc2⟩
        exact absurd this (hnoeq i (by omega) hi)
      · rintro ⟨s, loc, hok⟩
        unfold fileOffset at hok
        rw [hbs] at hok
        exact absurd hok (by simp)
    · intro s loc hok
      unfold fileOffset at hok
      rw [hbs] at hok
      exact absurd hok (by simp)
    · intro hno
      unfold fileOffset
      rw [hbs]
  · obtain ⟨-, hi, heq⟩ := bsearchLoop_ok _ files.length 0 files.length i (by omega) hbs
    rw [swap_eq_eq, cmpRange_eq_iff] at heq
    refine ⟨?_, ?_, ?_⟩
    · constructor
      · rintro -
        exact ⟨files.get! i, g - (files.get! i).offset, by unfold fileOffset; rw [hbs]⟩
      · rintro -
        exact ⟨i, hi, heq.1, heq.2⟩
    · intro s loc hok
      unfold fileOffset at hok
      rw [hbs] at hok
      injection hok with hpair
      injection hpair with hs hloc
      rw [← hs, ← hloc]
      exact ⟨get!_mem files i hi, heq.1, heq.2, by omega⟩
    · intro hno
      exact absurd ⟨heq.1, heq.2⟩ (hno i hi)

/-- Witness for C9 on a two-segment set at global offset 150. -/
theorem c9_locate_witness :
    (⟨2, 200, 100⟩ : Seg) ∈ [(⟨1, 100, 0⟩ : Seg), ⟨2, 200, 100⟩] ∧
    (⟨2, 200, 100⟩ : Seg).offset ≤ 150 ∧
    150 < (⟨2, 200, 100⟩ : Seg).offset + (⟨2, 200, 100⟩ : Seg).len ∧
    (⟨2, 200, 100⟩ : Seg).offset + 50 = 150 :=
  ((c9_locate.2 [⟨1, 100, 0⟩, ⟨2, 200, 100⟩] 150 (by rfl)).2.1) ⟨2, 200, 100⟩ 50 (by rfl)

example : fileOffset [⟨1, 100, 0⟩, ⟨2, 200, 100⟩] 300 = .error .InvalidIndex := by rfl
example : fileOffset [] 0 = .error .InvalidIndex := by rfl
example : cmpRange 0 0 0 = .gt := by rfl
example : cmpRange 0 0 1 = .eq := by rfl
example : cmpRange 100 0 100 = .gt := by rfl
example : cmpRange 99 100 100 = .lt := by rfl

/-- Record `NrscIdxRecord` of `src/resource/nrsc.rs` (u16, u16, u32, u32, u32 —
16 bytes on disk). -/
structure NrscIdxRecord where
  format : Nat
  fileseq : Nat
  id_str_offset : Nat
  file_offset : Nat
  len : Nat
  deriving DecidableEq, Repr, Inhabited

/-- Structure `NrscIndex` of `src/resource/nrsc.rs`: the record array and the packed
null-separated id table (the bytes of the `ids: String` field). -/
structure NrscIndex where
  idx : List NrscIdxRecord
  ids : List Nat
  deriving DecidableEq, Repr

/-- The fixed prefix (8-byte header plus the 16-byte records) subtracted by
`get_id_at` from an `id_str_offset`. -/
def idTablePre (nx : NrscIndex) : Nat := 16 * nx.idx.length + 8

/-- Predicate `str::is_char_boundary`: position 0, the end of the string, or a byte
that is not a UTF-8 continuation byte. -/
def isCharBoundary (s : List Nat) (i : Nat) : Bool :=
  i == 0 ||
    match s.get? i with
    | none => i == s.length
    | some b => b < 0x80 || 0xC0 ≤ b

/-- The tail scan of `get_id_at`: find the next null after `off` in the id
table and return the slice before it; no null left → `InvalidIndex`. -/
def scanId (nx : NrscIndex) (off : Nat) : Outcome (List Nat) :=
  match (nx.ids.drop off).findIdx? (fun b => b == 0) with
  | none => .err .InvalidIndex
  | some l => .ok ((nx.ids.drop off).take l)

/-- Method `NrscIndex::get_id_at`: the `usize` subtraction `offset - (16*len + 8)`
underflows for offsets below the prefix: a debug build panics there, and a
release build wraps to a huge offset whose `ids[offset-1..offset]` slice is
guaranteed out of bounds — a panic either way, so the model panics
directly. String slicing panics unless both bounds are char boundaries
within the string; the mid-key check compares `ids[off-1..off]` with
`"\0"`. -/
def getIdAt (nx : NrscIndex) (offset : Nat) : Outcome (List Nat) :=
  if offset < idTablePre nx then .panic
  else if 0 < offset - idTablePre nx then
    if isCharBoundary nx.ids (offset - idTablePre nx - 1) &&
        isCharBoundary nx.ids (offset - idTablePre nx) then
      if (nx.ids.drop (offset - idTablePre nx - 1)).take 1 ≠ [0] then .err .InvalidIndex
      else scanId nx (offset - idTablePre nx)
    else .panic
  else scanId nx (offset - idTablePre nx)

/-- The binary search of `NrscIndex::get_by_id`, with the `idx_err`
mutable-state threading: a comparator key that fails to materialize is
recorded (last error wins) and compared as the empty string `""`. The
budget argument mirrors `bsearchLoop`'s; the window shrinks every
iteration, so the `0` arm is dead for the budget every call supplies. -/
def nrscSearchLoop (nx : NrscIndex) (target : List Nat) :
    Nat → Nat → Nat → Option Error → Outcome (Except Nat Nat × Option Error)
  | 0, left, _, s => .ok (.error left, s)
  | fuel + 1, left, right, s =>
    if left < right then
      match getIdAt nx (nx.idx.get! (left + (right - left) / 2)).id_str_offset with
      | .panic => .panic
      | .diverge => .diverge
      | .err e =>
        match compareBytes [] target with
        | .lt => nrscSearchLoop nx target fuel (left + (right - left) / 2 + 1) right (some e)
        | .gt => nrscSearchLoop nx target fuel left (left + (right - left) / 2) (some e)
        | .eq => .ok (.ok (left + (right - left) / 2), some e)
      | .ok k =>
        match compareBytes k target with
        | .lt => nrscSearchLoop nx target fuel (left + (right - left) / 2 + 1) right s
        | .gt => nrscSearchLoop nx target fuel left (left + (right - left) / 2) s
        | .eq => .ok (.ok (left + (right - left) / 2), s)
    else .ok (.error left, s)

/-- Method `NrscIndex::get_by_id`: run the search, then
`.map_err(|_| Error::NotFound)?` — so a failed search returns `NotFound`
first — then `idx_err?`, then the found record. -/
def nrscGetById (nx : NrscIndex) (id : List Nat) : Outcome NrscIdxRecord :=
  match nrscSearchLoop nx id nx.idx.length 0 nx.idx.length none with
  | .panic => .panic
  | .diverge => .diverge
  | .err e => .err e
  | .ok (.error _, _) => .err .NotFound
  | .ok (.ok _, some e) => .err e
  | .ok (.ok i, none) => .ok (nx.idx.get! i)

/-- S5 fixture from the spec (the source's own `test_audio_index`): ids
`"", "a", "bb", "ccc", "dddd"`, each preceded by a null, with a trailing
null. -/
def nrscS5 : NrscIndex :=
  ⟨[⟨0, 0, 88, 0, 0⟩, ⟨0, 0, 89, 0, 0⟩, ⟨0, 0, 91, 0, 0⟩, ⟨0, 0, 94, 0, 0⟩, ⟨0, 0, 98, 0, 0⟩],
    [0, 97, 0, 98, 98, 0, 99, 99, 99, 0, 100, 100, 100, 100, 0]⟩

example : getIdAt nrscS5 88 = .ok [] := by rfl
example : getIdAt nrscS5 89 = .ok [97] := by rfl
example : getIdAt nrscS5 91 = .ok [98, 98] := by rfl
example : getIdAt nrscS5 92 = .err .InvalidIndex := by rfl
example : getIdAt nrscS5 94 = .ok [99, 99, 99] := by rfl
example : getIdAt nrscS5 98 = .ok [100, 100, 100, 100] := by rfl
example : nrscGetById nrscS5 [98, 98] = .ok ⟨0, 0, 91, 0, 0⟩ := by rfl
example : nrscGetById nrscS5 [100, 100, 100] = .err .NotFound := by rfl
example : nrscGetById nrscS5 [] = .ok ⟨0, 0, 88, 0, 0⟩ := by rfl

/-- Index whose single record's `id_str_offset` (26, computed table offset
2) points into the middle of the key `"ab"`. -/
def nrscC4 : NrscIndex := ⟨[⟨0, 0, 26, 0, 0⟩], [97, 98, 0, 99, 100]⟩

/-- Counterexample to C4 as stated: probing the only record fails to
materialize its key (`InvalidIndex` is recorded and `""` compared), the
search concludes not-found, and `get_by_id` returns `NotFound` — the
`.map_err(|_| NotFound)?` runs before `idx_err?`, so the remembered
materialization error is masked, contrary to the claim. -/
theorem c4_counterexample :
    nrscSearchLoop nrscC4 [122, 122, 122] 1 0 1 none =
      .ok (.error 1, some .InvalidIndex) ∧
    nrscGetById nrscC4 [122, 122, 122] = .err .NotFound ∧
    Error.NotFound ≠ Error.InvalidIndex := ⟨by rfl, by rfl, by decide⟩

theorem nrscSearchLoop_ne_err (nx : NrscIndex) (target : List Nat) :
    ∀ (fuel left right : Nat) (s : Option Error) (e : Error),
      nrscSearchLoop nx target fuel left right s ≠ .err e := by
  intro fuel
  induction fuel with
  | zero =>
    intro left right s e
    rw [nrscSearchLoop]
    simp
  | succ fuel ih =>
    intro left right s e
    rw [nrscSearchLoop]
    split
    · split
      · simp
      · simp
      · split
        · exact ih _ _ _ _
        · exact ih _ _ _ _
        · simp
      · split
        · exact ih _ _ _ _
        · exact ih _ _ _ _
        · simp
    · simp

/-- C4 amended: the recorded materialization error is surfaced only when
the binary search itself succeeds (there it does override the found
record, so a successful `get_by_id` result guarantees every probed key
materialized cleanly); when the search concludes not-found, `get_by_id`
returns `NotFound` even if a materialization error was recorded during
the search. -/
theorem c4_amended (nx : NrscIndex) (id : List Nat) :
    (∀ i e, nrscSearchLoop nx id nx.idx.length 0 nx.idx.length none = .ok (.ok i, some e) →
      nrscGetById nx id = .err e)
    ∧ (∀ i, nrscSearchLoop nx id nx.idx.length 0 nx.idx.length none = .ok (.ok i, none) →
      nrscGetById nx id = .ok (nx.idx.get! i))
    ∧ (∀ p s, nrscSearchLoop nx id nx.idx.length 0 nx.idx.length none = .ok (.error p, s) →
      nrscGetById nx id = .err .NotFound)
    ∧ (∀ r, nrscGetById nx id = .ok r →
        ∃ i, nrscSearchLoop nx id nx.idx.length 0 nx.idx.length none = .ok (.ok i, none) ∧
          r = nx.idx.get! i) := by
  refine ⟨?_, ?_, ?_, ?_⟩
  · intro i e h
    unfold nrscGetById
    rw [h]
  · intro i h
    unfold nrscGetById
    rw [h]
  · intro p s h
    unfold nrscGetById
    rw [h]
  · intro r h
    unfold nrscGetById at h
    rcases hloop : nrscSearchLoop nx id nx.idx.length 0 nx.idx.length none
        with ⟨res, s⟩ | e | _ | _
    · rcases res with p | i
      · rw [hloop] at h
        exact absurd h (by simp)
      · rcases s with _ | e
        · rw [hloop] at h
          simp only [Outcome.ok.injEq] at h
          exact ⟨i, rfl, h.symm⟩
        · rw [hloop] at h
          exact absurd h (by simp)
    · exact absurd hloop (nrscSearchLoop_ne_err nx id _ _ _ _ e)
    · rw [hloop] at h
      exact absurd h (by simp)
    · rw [hloop] at h
      exact absurd h (by simp)

/-- Witness for C4 (amended) on the S5 fixture: `get_by_id("bb")` finds
record 2 with no recorded error. -/
theorem c4_amended_witness : nrscGetById nrscS5 [98, 98] = .ok (nrscS5.idx.get! 2) :=
  (c4_amended nrscS5 [98, 98]).2.1 2 (by rfl)

/-- Counterexample to C7 as stated: a record whose raw `id_str_offset` is
literally 0 does not yield the empty key — the subtraction of the
header+records prefix underflows and the code panics (debug) or slices
far out of bounds (release), modelled as `panic`. -/
theorem c7_counterexample :
    getIdAt (⟨[⟨0, 0, 0, 0, 0⟩], [0]⟩ : NrscIndex) 0 = .panic ∧
    (Outcome.panic : Outcome (List Nat)) ≠ .ok [] := ⟨by rfl, by decide⟩

/-- C7 amended, for offsets at or above the header+records prefix (the
claim's `id_str_offset == 0` reads as computed table offset 0, as in the
source's own test): computed offset 0 yields the bytes before the first
null — the empty key when the id table starts with a null, as the format
lays it out; a nonzero computed offset whose preceding byte (at a char
boundary) is not null is `InvalidIndex`; otherwise the id is the slice
from the computed offset to the next null (`InvalidIndex` when no null
remains, per `scanId`). -/
theorem c7_amended (nx : NrscIndex) (offset : Nat)
    (hpre : idTablePre nx ≤ offset) :
    (offset - idTablePre nx = 0 → nx.ids.get? 0 = some 0 → getIdAt nx offset = .ok [])
    ∧ (∀ off, off = offset - idTablePre nx → 0 < off →
        isCharBoundary nx.ids (off - 1) = true → isCharBoundary nx.ids off = true →
        nx.ids.get? (off - 1) ≠ some 0 →
        getIdAt nx offset = .err .InvalidIndex)
    ∧ (∀ off l, off = offset - idTablePre nx →
        (0 < off → isCharBoundary nx.ids (off - 1) = true ∧
          isCharBoundary nx.ids off = true ∧ nx.ids.get? (off - 1) = some 0) →
        (nx.ids.drop off).findIdx? (fun b => b == 0) = some l →
        getIdAt nx offset = .ok ((nx.ids.drop off).take l)) := by
  have htake1 : ∀ (l : List Nat) (i : Nat) (x : Nat), l.get? i = some x →
      (l.drop i).take 1 = [x] := by
    intro l
    induction l with
    | nil => intro i x h; simp at h
    | cons a t ih =>
      intro i x h
      cases i with
      | zero =>
        simp at h
        simp [h]
      | succ i =>
        simp only [List.get?_cons_succ] at h
        simpa using ih i x h
  refine ⟨?_, ?_, ?_⟩
  · intro hoff hnull
    unfold getIdAt
    rw [if_neg (by omega), if_neg (by omega), hoff]
    unfold scanId
    have : nx.ids.findIdx? (fun b => b == 0) = some 0 := by
      cases hids : nx.ids with
      | nil => rw [hids] at hnull; simp at hnull
      | cons a t =>
        rw [hids] at hnull
        simp at hnull
        simp [List.findIdx?, hnull]
    simp [this]
  · intro off hoff hpos hb1 hb2 hne
    subst hoff
    unfold getIdAt
    rw [if_neg (by omega), if_pos (by omega), if_pos (by simp [hb1, hb2])]
    have hlt : offset - idTablePre nx - 1 < nx.ids.length := by
      unfold isCharBoundary at hb2
      rcases hg : nx.ids.get? (offset - idTablePre nx) with _ | b
      · rw [hg] at hb2
        simp at hb2
        omega
      · obtain ⟨hlt', -⟩ := List.get?_eq_some.mp hg
        omega
    rcases hg1 : nx.ids.get? (offset - idTablePre nx - 1) with _ | x
    · rw [List.get?_eq_none] at hg1
      omega
    · rw [if_pos]
      have hx0 : x ≠ 0 := by
        intro hcon
        exact hne (by rw [hg1, hcon])
      rw [htake1 nx.ids _ x hg1]
      simp [hx0]
  · intro off l hoff hguard hfind
    subst hoff
    unfold getIdAt
    rw [if_neg (by omega)]
    by_cases hpos : 0 < offset - idTablePre nx
    · obtain ⟨hb1, hb2, hnull⟩ := hguard hpos
      rw [if_pos hpos, if_pos (by simp [hb1, hb2])]
      rw [if_neg]
      · unfold scanId
        rw [hfind]
      · rw [htake1 nx.ids _ 0 hnull]
        simp
    · rw [if_neg hpos]
      unfold scanId
      rw [hfind]

/-- Witness for C7 (amended) at the S5 fixture's mid-key offset 92. -/
theorem c7_amended_witness : getIdAt nrscS5 92 = .err .InvalidIndex :=
  ((c7_amended nrscS5 92 (by decide)).2.1) 4 (by rfl) (by decide) (by rfl) (by rfl) (by decide)
